import Mathlib

/-!
Shallow embedding of the session state store of
`astrbot_plugin_immersive_control` (`src/core/data.py`), together with
theorems settling the specification claims about it.

Modelling conventions:
* The wall clock (`time.time()`) is an injected integer parameter `now : Int`
  (the spec's Clock component); timestamps are integers.
* A Python `dict` is an association list with unique keys in insertion order;
  `kvLookup` / `kvInsert` / `kvErase` mirror `d.get`, `d[k] = v`, `del d[k]`.
* The persistence backend is the pair of maps held in `StoreState`; each
  public operation returns its result value together with the state as
  persisted when the operation returns.
-/

namespace ImmersiveControl

/-- `d.get(k)` on a Python dict, as lookup of the first matching key. -/
def kvLookup {α : Type} : List (String × α) → String → Option α
  | [], _ => none
  | (k₁, v) :: rest, k => if k₁ = k then some v else kvLookup rest k

/-- `d[k] = v` on a Python dict: replace the value at an existing key in
place, otherwise append the new binding. -/
def kvInsert {α : Type} : List (String × α) → String → α → List (String × α)
  | [], k, v => [(k, v)]
  | (k₁, v₁) :: rest, k, v =>
    if k₁ = k then (k₁, v) :: rest else (k₁, v₁) :: kvInsert rest k v

/-- `del d[k]` on a Python dict: drop the binding for `k`. -/
def kvErase {α : Type} : List (String × α) → String → List (String × α)
  | [], _ => []
  | (k₁, v₁) :: rest, k =>
    if k₁ = k then kvErase rest k else (k₁, v₁) :: kvErase rest k

/-- `SessionRecord` from `src/core/data.py`: one dataclass with nullable
fields; ACTIVE records use `sensitivity`/`end_at`/`activated_at`,
EXIT_PENDING records use `ts`/`reason`. -/
structure SessionRecord where
  is_active : Bool
  item_name : String
  sensitivity : Option Int := none
  end_at : Option Int := none
  activated_at : Option Int := none
  ts : Option Int := none
  reason : Option String := none
deriving DecidableEq, Repr

/-- `SessionRecord.active` classmethod: a fresh ACTIVE record at time `now`. -/
def SessionRecord.active (now duration : Int) (item_name : String)
    (sensitivity : Int) : SessionRecord :=
  { is_active := true
    item_name := item_name
    sensitivity := some sensitivity
    activated_at := some now
    end_at := some (now + duration) }

/-- `SessionRecord.exit_pending` classmethod: a fresh EXIT_PENDING record at
time `now`. -/
def SessionRecord.exit_pending (now : Int) (reason item_name : String) :
    SessionRecord :=
  { is_active := false
    item_name := item_name
    reason := some reason
    ts := some now }

/-- `SessionRecord.is_expired_active`: ACTIVE and `end_at <= now`. -/
def SessionRecord.is_expired_active (r : SessionRecord) (now : Int) : Bool :=
  r.is_active && (match r.end_at with
    | some e => decide (e ≤ now)
    | none => false)

/-- `SessionRecord.is_expired_exit`: not ACTIVE and `now - ts > ttl`. -/
def SessionRecord.is_expired_exit (r : SessionRecord) (now ttl : Int) : Bool :=
  !r.is_active && (match r.ts with
    | some t => decide (ttl < now - t)
    | none => false)

/-- The configuration snapshot consumed by the store (`PluginConfig` fields
read by `SessionStore` in `src/core/data.py`; `exit_pending_ttl` is fixed to
86400 at construction but kept abstract here). -/
structure PluginConfig where
  interactive_item_name : String
  state_duration_seconds : Int
  cooldown_seconds : Int
  sensitivity_level : Int
  max_concurrent_states : Nat
  exit_pending_ttl : Int
deriving DecidableEq, Repr

/-- The two persisted namespaces (`immersive_states`, `immersive_cooldowns`). -/
structure StoreState where
  states : List (String × SessionRecord)
  cooldowns : List (String × Int)
deriving DecidableEq, Repr

def emptyStore : StoreState := ⟨[], []⟩

/-- Count of ACTIVE records: `sum(1 for s in states.values() if s.is_active)`. -/
def countActive (l : List (String × SessionRecord)) : Nat :=
  l.countP fun kv => kv.2.is_active

/-- `SessionStore._cleanup_states`: one pass over the records, replacing every
expired ACTIVE record by a fresh EXIT_PENDING record (`reason = "expire"`,
`ts = now`, item name preserved), dropping every EXIT_PENDING record past its
TTL, and reporting in the second component whether anything changed. -/
def cleanup_states (ttl now : Int) :
    List (String × SessionRecord) → List (String × SessionRecord) × Bool
  | [] => ([], false)
  | (k, sr) :: rest =>
    let r := cleanup_states ttl now rest
    if sr.is_expired_active now then
      ((k, SessionRecord.exit_pending now "expire" sr.item_name) :: r.1, true)
    else if sr.is_expired_exit now ttl then
      (r.1, true)
    else
      ((k, sr) :: r.1, r.2)

/-- The action of `_cleanup_states` on a single binding (used to characterise
the pass as a `filterMap`). -/
def cleanupEntry (ttl now : Int) (kv : String × SessionRecord) :
    Option (String × SessionRecord) :=
  if kv.2.is_expired_active now then
    some (kv.1, SessionRecord.exit_pending now "expire" kv.2.item_name)
  else if kv.2.is_expired_exit now ttl then
    none
  else
    some kv

namespace SessionStore

/-- `SessionStore.get`: cleanup (persisting the cleaned map), then look the
key up in the cleaned map. -/
def get (cfg : PluginConfig) (now : Int) (key : String) (st : StoreState) :
    Option SessionRecord × StoreState :=
  let states := (cleanup_states cfg.exit_pending_ttl now st.states).1
  (kvLookup states key, { st with states := states })

/-- `SessionStore.activate`: cleanup; if the ACTIVE count is already at the
limit, decline without persisting anything; otherwise overwrite the key with a
fresh ACTIVE record built from the configuration and set the key's cooldown to
`now + cooldown_seconds`. -/
def activate (cfg : PluginConfig) (now : Int) (key : String) (st : StoreState) :
    (Bool × String) × StoreState :=
  let states := (cleanup_states cfg.exit_pending_ttl now st.states).1
  let active_count := countActive states
  if cfg.max_concurrent_states ≤ active_count then
    ((false, "并发上限"), st)
  else
    ((true, "ok"),
      { states := kvInsert states key
          (SessionRecord.active now cfg.state_duration_seconds
            cfg.interactive_item_name cfg.sensitivity_level)
        cooldowns := kvInsert st.cooldowns key (now + cfg.cooldown_seconds) })

/-- `SessionStore.deactivate`: no cleanup; fail unless the key's record exists
and is ACTIVE, otherwise overwrite it with an EXIT_PENDING record
(`reason = "user"`, item name preserved). -/
def deactivate (now : Int) (key : String) (st : StoreState) :
    Bool × StoreState :=
  match kvLookup st.states key with
  | none => (false, st)
  | some sr =>
    if sr.is_active then
      (true, { st with
        states := kvInsert st.states key
          (SessionRecord.exit_pending now "user" sr.item_name) })
    else
      (false, st)

/-- `SessionStore.complete_exit`: no cleanup; fail unless the key's record
exists and is not ACTIVE, otherwise delete it and return it. -/
def complete_exit (key : String) (st : StoreState) :
    Option SessionRecord × StoreState :=
  match kvLookup st.states key with
  | none => (none, st)
  | some sr =>
    if sr.is_active then
      (none, st)
    else
      (some sr, { st with states := kvErase st.states key })

/-- `SessionStore.check_cooldown`: `max(0, int(end - now))` with
`end = cooldowns.get(key, 0)`; mutates nothing. -/
def check_cooldown (now : Int) (key : String) (st : StoreState) : Int :=
  max 0 ((kvLookup st.cooldowns key).getD 0 - now)

end SessionStore

/-- One public store call, for reasoning about sequences of operations. -/
inductive StoreOp where
  | getOp (now : Int) (key : String)
  | activateOp (now : Int) (key : String)
  | deactivateOp (now : Int) (key : String)
  | completeExitOp (key : String)
  | checkCooldownOp (now : Int) (key : String)
deriving DecidableEq, Repr

/-- The persisted state after one public store call. -/
def StoreOp.apply (cfg : PluginConfig) : StoreOp → StoreState → StoreState
  | .getOp now key, st => (SessionStore.get cfg now key st).2
  | .activateOp now key, st => (SessionStore.activate cfg now key st).2
  | .deactivateOp now key, st => (SessionStore.deactivate now key st).2
  | .completeExitOp key, st => (SessionStore.complete_exit key st).2
  | .checkCooldownOp _ _, st => st

/-- The trace of persisted states visited while running a sequence of calls,
starting state included. -/
def run (cfg : PluginConfig) (st : StoreState) : List StoreOp → List StoreState
  | [] => [st]
  | op :: ops => st :: run cfg (op.apply cfg st) ops

/-- `some true` when the key is ACTIVE at step `i` of a trace, `some false`
when EXIT_PENDING, `none` when it has no record. -/
def recStateAt (tr : List StoreState) (i : Nat) (key : String) : Option Bool :=
  (kvLookup (tr.getD i emptyStore).states key).map (·.is_active)

/-- A raw persisted value in the states namespace (`SessionDict`).
`is_active = none` models a dict without the field, `some none` a field
holding a non-boolean value, `some (some b)` a proper boolean. -/
structure SessionDict where
  is_active : Option (Option Bool) := none
  item_name : Option String := none
  sensitivity : Option Int := none
  end_at : Option Int := none
  activated_at : Option Int := none
  ts : Option Int := none
  reason : Option String := none
deriving DecidableEq, Repr

/-- `SessionRecord.to_dict`: serialize, keeping only the populated fields. -/
def SessionRecord.to_dict (r : SessionRecord) : SessionDict :=
  { is_active := some (some r.is_active)
    item_name := some r.item_name
    sensitivity := r.sensitivity
    end_at := r.end_at
    activated_at := r.activated_at
    ts := r.ts
    reason := r.reason }

/-- `SessionRecord.from_dict`: reject (return `none`) exactly when
`is_active` is missing or not a boolean; otherwise build the record,
defaulting `item_name` to `"特殊装置"`. -/
def SessionRecord.from_dict (raw : SessionDict) : Option SessionRecord :=
  match raw.is_active with
  | some (some b) =>
    some { is_active := b
           item_name := raw.item_name.getD "特殊装置"
           sensitivity := raw.sensitivity
           end_at := raw.end_at
           activated_at := raw.activated_at
           ts := raw.ts
           reason := raw.reason }
  | _ => none

/-- `SessionStore._load_states`: deserialize each entry, skipping those
`from_dict` rejects. -/
def load_states : List (String × SessionDict) → List (String × SessionRecord)
  | [] => []
  | (k, d) :: rest =>
    match SessionRecord.from_dict d with
    | some r => (k, r) :: load_states rest
    | none => load_states rest

/-- The spec's record shape invariant: ACTIVE-shaped (has `activated_at`,
`end_at`, `sensitivity`; no `ts`/`reason`) or EXIT_PENDING-shaped (has `ts`,
`reason`; none of the ACTIVE fields), never both. -/
def WellShaped (r : SessionRecord) : Prop :=
  (r.is_active = true ∧ r.activated_at.isSome = true ∧ r.end_at.isSome = true ∧
    r.sensitivity.isSome = true ∧ r.ts = none ∧ r.reason = none) ∨
  (r.is_active = false ∧ r.ts.isSome = true ∧ r.reason.isSome = true ∧
    r.end_at = none ∧ r.activated_at = none ∧ r.sensitivity = none)

instance (r : SessionRecord) : Decidable (WellShaped r) := by
  unfold WellShaped
  infer_instance

/-- The shape invariant on a raw persisted value. -/
def WellShapedDict (d : SessionDict) : Prop :=
  (d.is_active = some (some true) ∧ d.activated_at.isSome = true ∧
    d.end_at.isSome = true ∧ d.sensitivity.isSome = true ∧
    d.ts = none ∧ d.reason = none) ∨
  (d.is_active = some (some false) ∧ d.ts.isSome = true ∧
    d.reason.isSome = true ∧ d.end_at = none ∧ d.activated_at = none ∧
    d.sensitivity = none)

instance (d : SessionDict) : Decidable (WellShapedDict d) := by
  unfold WellShapedDict
  infer_instance

/-- Claim C4 as stated: along any trace from the empty backend, between an
EXIT_PENDING observation of a key and a later ACTIVE observation there is an
intermediate point where the key has no record. -/
def claimC4Statement (cfg : PluginConfig) (ops : List StoreOp)
    (key : String) : Prop :=
  ∀ i < (run cfg emptyStore ops).length, ∀ j < (run cfg emptyStore ops).length,
    i < j →
    recStateAt (run cfg emptyStore ops) i key = some false →
    recStateAt (run cfg emptyStore ops) j key = some true →
    ∃ m < j, i < m ∧ recStateAt (run cfg emptyStore ops) m key = none

/-- Claim C9 as stated: a persisted entry that fails the shape invariant is
skipped on load, so the key has no record and `get` reports nothing. -/
def claimC9Statement : Prop :=
  ∀ (raw : List (String × SessionDict)) (k : String) (d : SessionDict)
    (cfg : PluginConfig) (now : Int),
    kvLookup raw k = some d → ¬WellShapedDict d →
    kvLookup (load_states raw) k = none ∧
      (SessionStore.get cfg now k ⟨load_states raw, []⟩).1 = none

/-! Concrete fixtures for witnesses and counterexamples. -/

def testCfg : PluginConfig :=
  { interactive_item_name := "device"
    state_duration_seconds := 5
    cooldown_seconds := 30
    sensitivity_level := 50
    max_concurrent_states := 10
    exit_pending_ttl := 100 }

def capCfg : PluginConfig :=
  { interactive_item_name := "device"
    state_duration_seconds := 5
    cooldown_seconds := 30
    sensitivity_level := 50
    max_concurrent_states := 0
    exit_pending_ttl := 100 }

def stActive : StoreState :=
  ⟨[("a", SessionRecord.active 0 5 "device" 50)], []⟩

def stExit : StoreState :=
  ⟨[("a", SessionRecord.exit_pending 0 "user" "device")], []⟩

def badDict : SessionDict := { is_active := some (some true) }

def noneDict : SessionDict := {}

/-! ### Association-list lemmas -/

theorem kvLookup_cons {α : Type} (k₁ : String) (v₁ : α)
    (rest : List (String × α)) (k : String) :
    kvLookup ((k₁, v₁) :: rest) k =
      if k₁ = k then some v₁ else kvLookup rest k := rfl

theorem kvInsert_cons {α : Type} (k₁ : String) (v₁ : α)
    (rest : List (String × α)) (k : String) (v : α) :
    kvInsert ((k₁, v₁) :: rest) k v =
      if k₁ = k then (k₁, v) :: rest else (k₁, v₁) :: kvInsert rest k v := rfl

theorem kvErase_cons {α : Type} (k₁ : String) (v₁ : α)
    (rest : List (String × α)) (k : String) :
    kvErase ((k₁, v₁) :: rest) k =
      if k₁ = k then kvErase rest k else (k₁, v₁) :: kvErase rest k := rfl

theorem kvLookup_kvInsert_self {α : Type} (l : List (String × α)) (k : String)
    (v : α) : kvLookup (kvInsert l k v) k = some v := by
  induction l with
  | nil => simp [kvInsert, kvLookup]
  | cons hd tl ih =>
    obtain ⟨k₁, v₁⟩ := hd
    by_cases h : k₁ = k
    · subst h; simp [kvInsert, kvLookup]
    · simp [kvInsert, kvLookup, h, ih]

theorem kvLookup_kvInsert_ne {α : Type} (l : List (String × α)) {k' k : String}
    (v : α) (hne : k' ≠ k) : kvLookup (kvInsert l k' v) k = kvLookup l k := by
  induction l with
  | nil => simp [kvInsert, kvLookup, hne]
  | cons hd tl ih =>
    obtain ⟨k₁, v₁⟩ := hd
    by_cases h : k₁ = k'
    · subst h
      rw [kvInsert_cons, if_pos rfl, kvLookup_cons, kvLookup_cons,
        if_neg hne, if_neg hne]
    · rw [kvInsert_cons, if_neg h, kvLookup_cons, kvLookup_cons, ih]

theorem kvLookup_kvErase_self {α : Type} (l : List (String × α)) (k : String) :
    kvLookup (kvErase l k) k = none := by
  induction l with
  | nil => simp [kvErase, kvLookup]
  | cons hd tl ih =>
    obtain ⟨k₁, v₁⟩ := hd
    by_cases h : k₁ = k <;> simp [kvErase, kvLookup, h, ih]

theorem kvLookup_kvErase_ne {α : Type} (l : List (String × α)) {k' k : String}
    (hne : k' ≠ k) : kvLookup (kvErase l k') k = kvLookup l k := by
  induction l with
  | nil => simp [kvErase, kvLookup]
  | cons hd tl ih =>
    obtain ⟨k₁, v₁⟩ := hd
    by_cases h : k₁ = k'
    · subst h
      rw [kvErase_cons, if_pos rfl, kvLookup_cons, if_neg hne, ih]
    · rw [kvErase_cons, if_neg h, kvLookup_cons, kvLookup_cons, ih]

theorem mem_kvInsert {α : Type} {l : List (String × α)} {k : String} {v : α}
    {kv : String × α} (h : kv ∈ kvInsert l k v) : kv ∈ l ∨ kv = (k, v) := by
  induction l with
  | nil =>
    simp only [kvInsert, List.mem_singleton] at h
    exact Or.inr h
  | cons hd tl ih =>
    obtain ⟨k₁, v₁⟩ := hd
    by_cases hk : k₁ = k
    · subst hk
      rw [kvInsert_cons, if_pos rfl] at h
      rcases List.mem_cons.mp h with h1 | h1
      · exact Or.inr h1
      · exact Or.inl (List.mem_cons_of_mem _ h1)
    · rw [kvInsert_cons, if_neg hk] at h
      rcases List.mem_cons.mp h with h1 | h1
      · exact Or.inl (List.mem_cons.mpr (Or.inl h1))
      · rcases ih h1 with h2 | h2
        · exact Or.inl (List.mem_cons_of_mem _ h2)
        · exact Or.inr h2

theorem mem_kvErase {α : Type} {l : List (String × α)} {k : String}
    {kv : String × α} (h : kv ∈ kvErase l k) : kv ∈ l := by
  induction l with
  | nil => simp [kvErase] at h
  | cons hd tl ih =>
    obtain ⟨k₁, v₁⟩ := hd
    by_cases hk : k₁ = k
    · rw [kvErase_cons, if_pos hk] at h
      exact List.mem_cons_of_mem _ (ih h)
    · rw [kvErase_cons, if_neg hk] at h
      rcases List.mem_cons.mp h with h1 | h1
      · exact List.mem_cons.mpr (Or.inl h1)
      · exact List.mem_cons_of_mem _ (ih h1)

theorem kvLookup_mem_keys {α : Type} {l : List (String × α)} {k : String}
    {v : α} (h : kvLookup l k = some v) : k ∈ l.map Prod.fst := by
  induction l with
  | nil => simp [kvLookup] at h
  | cons hd tl ih =>
    obtain ⟨k₁, v₁⟩ := hd
    by_cases hk : k₁ = k
    · subst hk; simp
    · rw [kvLookup_cons, if_neg hk] at h
      simpa using Or.inr (ih h)

theorem countActive_kvInsert_le (l : List (String × SessionRecord)) (k : String)
    (v : SessionRecord) : countActive (kvInsert l k v) ≤ countActive l + 1 := by
  induction l with
  | nil =>
    simp only [kvInsert, countActive, List.countP_cons, List.countP_nil]
    split <;> omega
  | cons hd tl ih =>
    obtain ⟨k₁, v₁⟩ := hd
    by_cases hk : k₁ = k
    · rw [kvInsert_cons, if_pos hk]
      simp only [countActive, List.countP_cons]
      split <;> split <;> omega
    · rw [kvInsert_cons, if_neg hk]
      simp only [countActive, List.countP_cons] at ih ⊢
      split <;> omega

/-! ### Cleanup-pass lemmas -/

theorem cleanup_states_cons (ttl now : Int) (k : String) (sr : SessionRecord)
    (rest : List (String × SessionRecord)) :
    cleanup_states ttl now ((k, sr) :: rest) =
      if sr.is_expired_active now then
        ((k, SessionRecord.exit_pending now "expire" sr.item_name) ::
          (cleanup_states ttl now rest).1, true)
      else if sr.is_expired_exit now ttl then
        ((cleanup_states ttl now rest).1, true)
      else
        ((k, sr) :: (cleanup_states ttl now rest).1,
          (cleanup_states ttl now rest).2) := rfl

theorem is_active_of_is_expired_active {sr : SessionRecord} {now : Int}
    (h : sr.is_expired_active now = true) : sr.is_active = true := by
  simp only [SessionRecord.is_expired_active, Bool.and_eq_true] at h
  exact h.1

theorem cleanup_states_eq_filterMap (ttl now : Int)
    (l : List (String × SessionRecord)) :
    (cleanup_states ttl now l).1 = l.filterMap (cleanupEntry ttl now) := by
  induction l with
  | nil => rfl
  | cons hd tl ih =>
    obtain ⟨k, sr⟩ := hd
    rw [cleanup_states_cons]
    by_cases h1 : sr.is_expired_active now
    · simp [cleanupEntry, h1, ih]
    · by_cases h2 : sr.is_expired_exit now ttl <;>
        simp [cleanupEntry, h1, h2, ih]

theorem cleanup_states_length_le (ttl now : Int)
    (l : List (String × SessionRecord)) :
    (cleanup_states ttl now l).1.length ≤ l.length := by
  induction l with
  | nil => simp [cleanup_states]
  | cons hd tl ih =>
    obtain ⟨k, sr⟩ := hd
    rw [cleanup_states_cons]
    by_cases h1 : sr.is_expired_active now
    · simpa [h1] using ih
    · by_cases h2 : sr.is_expired_exit now ttl
      · simp only [h1, if_false, h2, if_true, Bool.false_eq_true]
        exact Nat.le_succ_of_le ih
      · simpa [h1, h2] using ih

theorem cleanup_states_of_not_changed (ttl now : Int)
    (l : List (String × SessionRecord))
    (h : (cleanup_states ttl now l).2 = false) :
    (cleanup_states ttl now l).1 = l := by
  induction l with
  | nil => rfl
  | cons hd tl ih =>
    obtain ⟨k, sr⟩ := hd
    rw [cleanup_states_cons] at h ⊢
    by_cases h1 : sr.is_expired_active now
    · simp [h1] at h
    · by_cases h2 : sr.is_expired_exit now ttl
      · simp [h1, h2] at h
      · simp only [h1, h2, if_false, Bool.false_eq_true] at h ⊢
        rw [ih h]

theorem cleanup_states_changed_iff (ttl now : Int)
    (l : List (String × SessionRecord)) :
    (cleanup_states ttl now l).2 = true ↔ (cleanup_states ttl now l).1 ≠ l := by
  constructor
  · intro hch
    induction l with
    | nil => simp [cleanup_states] at hch
    | cons hd tl ih =>
      obtain ⟨k, sr⟩ := hd
      rw [cleanup_states_cons] at hch ⊢
      by_cases h1 : sr.is_expired_active now
      · simp only [h1, if_true]
        intro heq
        have hhd := (List.cons.injEq _ _ _ _).mp heq
        have : (SessionRecord.exit_pending now "expire" sr.item_name).is_active
            = sr.is_active := by rw [(Prod.mk.injEq _ _ _ _).mp hhd.1 |>.2]
        rw [is_active_of_is_expired_active h1] at this
        simp [SessionRecord.exit_pending] at this
      · by_cases h2 : sr.is_expired_exit now ttl
        · simp only [h1, if_false, h2, if_true, Bool.false_eq_true]
          intro heq
          have := cleanup_states_length_le ttl now tl
          rw [heq] at this
          simp at this
        · simp only [h1, h2, if_false, Bool.false_eq_true] at hch ⊢
          intro heq
          exact ih hch ((List.cons.injEq _ _ _ _).mp heq).2
  · intro hne
    by_contra hch
    exact hne (cleanup_states_of_not_changed ttl now l
      (Bool.not_eq_true _ ▸ hch))

theorem mem_cleanup_states {ttl now : Int} {l : List (String × SessionRecord)}
    {kv : String × SessionRecord} (h : kv ∈ (cleanup_states ttl now l).1) :
    kv.2 ∈ l.map Prod.snd ∨
      ∃ nm, kv.2 = SessionRecord.exit_pending now "expire" nm := by
  rw [cleanup_states_eq_filterMap] at h
  rcases List.mem_filterMap.mp h with ⟨a, ha, hfa⟩
  unfold cleanupEntry at hfa
  by_cases h1 : a.2.is_expired_active now
  · simp only [h1, if_true] at hfa
    injection hfa with hfa
    subst hfa
    exact Or.inr ⟨a.2.item_name, rfl⟩
  · by_cases h2 : a.2.is_expired_exit now ttl
    · simp [h1, h2] at hfa
    · simp only [h1, h2, if_false, Option.some.injEq, Bool.false_eq_true] at hfa
      left
      exact hfa ▸ List.mem_map_of_mem Prod.snd ha

theorem kvLookup_cleanup_states_not_expired {ttl now : Int}
    {l : List (String × SessionRecord)} {k : String} {sr : SessionRecord}
    (h : kvLookup l k = some sr)
    (h1 : sr.is_expired_active now = false)
    (h2 : sr.is_expired_exit now ttl = false) :
    kvLookup (cleanup_states ttl now l).1 k = some sr := by
  induction l with
  | nil => simp [kvLookup] at h
  | cons hd tl ih =>
    obtain ⟨k₁, v₁⟩ := hd
    by_cases hk : k₁ = k
    · subst hk
      rw [kvLookup_cons, if_pos rfl] at h
      injection h with h
      subst h
      rw [cleanup_states_cons]
      simp only [h1, h2, if_false, Bool.false_eq_true]
      rw [kvLookup_cons, if_pos rfl]
    · rw [kvLookup_cons, if_neg hk] at h
      rw [cleanup_states_cons]
      by_cases e1 : v₁.is_expired_active now
      · simp only [e1, if_true]
        rw [kvLookup_cons, if_neg hk]
        exact ih h
      · by_cases e2 : v₁.is_expired_exit now ttl
        · simp only [e1, if_false, e2, if_true, Bool.false_eq_true]
          exact ih h
        · simp only [e1, e2, if_false, Bool.false_eq_true]
          rw [kvLookup_cons, if_neg hk]
          exact ih h

theorem cleanup_states_keys_sub {ttl now : Int}
    {l : List (String × SessionRecord)} {k : String}
    (h : k ∈ ((cleanup_states ttl now l).1).map Prod.fst) :
    k ∈ l.map Prod.fst := by
  rw [cleanup_states_eq_filterMap] at h
  rcases List.mem_map.mp h with ⟨kv, hkv, hfst⟩
  rcases List.mem_filterMap.mp hkv with ⟨a, ha, hfa⟩
  unfold cleanupEntry at hfa
  have hfst2 : a.1 = kv.1 := by
    by_cases h1 : a.2.is_expired_active now
    · simp only [h1, if_true, Option.some.injEq] at hfa
      rw [← hfa]
    · by_cases h2 : a.2.is_expired_exit now ttl
      · simp [h1, h2] at hfa
      · simp only [h1, h2, if_false, Option.some.injEq, Bool.false_eq_true] at hfa
        rw [← hfa]
  exact List.mem_map.mpr ⟨a, ha, hfst2.trans hfst⟩

theorem kvLookup_cleanup_states_active {ttl now : Int}
    {l : List (String × SessionRecord)} {k : String} {sr : SessionRecord}
    (hnd : (l.map Prod.fst).Nodup)
    (h : kvLookup (cleanup_states ttl now l).1 k = some sr)
    (hact : sr.is_active = true) :
    kvLookup l k = some sr := by
  induction l with
  | nil => simp [cleanup_states, kvLookup] at h
  | cons hd tl ih =>
    obtain ⟨k₁, v₁⟩ := hd
    have hnd' : (tl.map Prod.fst).Nodup := (List.nodup_cons.mp hnd).2
    have hk₁ : k₁ ∉ tl.map Prod.fst := (List.nodup_cons.mp hnd).1
    rw [cleanup_states_cons] at h
    by_cases e1 : v₁.is_expired_active now
    · simp only [e1, if_true] at h
      by_cases hk : k₁ = k
      · subst hk
        rw [kvLookup_cons, if_pos rfl] at h
        injection h with h
        rw [← h] at hact
        simp [SessionRecord.exit_pending] at hact
      · rw [kvLookup_cons, if_neg hk] at h
        rw [kvLookup_cons, if_neg hk]
        exact ih hnd' h
    · by_cases e2 : v₁.is_expired_exit now ttl
      · simp only [e1, if_false, e2, if_true, Bool.false_eq_true] at h
        by_cases hk : k₁ = k
        · subst hk
          exact absurd (cleanup_states_keys_sub (kvLookup_mem_keys h)) hk₁
        · rw [kvLookup_cons, if_neg hk]
          exact ih hnd' h
      · simp only [e1, e2, if_false, Bool.false_eq_true] at h
        by_cases hk : k₁ = k
        · subst hk
          rw [kvLookup_cons, if_pos rfl] at h
          rw [kvLookup_cons, if_pos rfl]
          exact h
        · rw [kvLookup_cons, if_neg hk] at h
          rw [kvLookup_cons, if_neg hk]
          exact ih hnd' h

/-! ### Unfolding equations for the store operations -/

theorem activate_eq_def (cfg : PluginConfig) (now : Int) (key : String)
    (st : StoreState) :
    SessionStore.activate cfg now key st =
      if cfg.max_concurrent_states ≤
          countActive (cleanup_states cfg.exit_pending_ttl now st.states).1 then
        ((false, "并发上限"), st)
      else
        ((true, "ok"),
          { states := kvInsert
              (cleanup_states cfg.exit_pending_ttl now st.states).1 key
              (SessionRecord.active now cfg.state_duration_seconds
                cfg.interactive_item_name cfg.sensitivity_level)
            cooldowns := kvInsert st.cooldowns key
              (now + cfg.cooldown_seconds) }) := rfl

theorem get_eq_def (cfg : PluginConfig) (now : Int) (key : String)
    (st : StoreState) :
    SessionStore.get cfg now key st =
      (kvLookup (cleanup_states cfg.exit_pending_ttl now st.states).1 key,
        { st with
          states := (cleanup_states cfg.exit_pending_ttl now st.states).1 }) :=
  rfl

theorem deactivate_eq_of_none (now : Int) {key : String} {st : StoreState}
    (h : kvLookup st.states key = none) :
    SessionStore.deactivate now key st = (false, st) := by
  unfold SessionStore.deactivate
  rw [h]

theorem deactivate_eq_of_inactive (now : Int) {key : String} {st : StoreState}
    {sr : SessionRecord} (h : kvLookup st.states key = some sr)
    (ha : sr.is_active = false) :
    SessionStore.deactivate now key st = (false, st) := by
  unfold SessionStore.deactivate
  rw [h]
  simp [ha]

theorem deactivate_eq_of_active (now : Int) {key : String} {st : StoreState}
    {sr : SessionRecord} (h : kvLookup st.states key = some sr)
    (ha : sr.is_active = true) :
    SessionStore.deactivate now key st =
      (true, { st with
        states := kvInsert st.states key
          (SessionRecord.exit_pending now "user" sr.item_name) }) := by
  unfold SessionStore.deactivate
  rw [h]
  simp [ha]

theorem complete_exit_eq_of_none {key : String} {st : StoreState}
    (h : kvLookup st.states key = none) :
    SessionStore.complete_exit key st = (none, st) := by
  unfold SessionStore.complete_exit
  rw [h]

theorem complete_exit_eq_of_active {key : String} {st : StoreState}
    {sr : SessionRecord} (h : kvLookup st.states key = some sr)
    (ha : sr.is_active = true) :
    SessionStore.complete_exit key st = (none, st) := by
  unfold SessionStore.complete_exit
  rw [h]
  simp [ha]

theorem complete_exit_eq_of_inactive {key : String} {st : StoreState}
    {sr : SessionRecord} (h : kvLookup st.states key = some sr)
    (ha : sr.is_active = false) :
    SessionStore.complete_exit key st =
      (some sr, { st with states := kvErase st.states key }) := by
  unfold SessionStore.complete_exit
  rw [h]
  simp [ha]

/-! ### Claim theorems -/

/-- C1: the ACTIVE count never exceeds `max_concurrent_states` at the moment
an activation is granted, and an `activate` that finds the (cleanup-adjusted)
ACTIVE count already at the limit declines and leaves the persisted records
and cooldown entries unchanged. -/
theorem capacity_never_exceeded (cfg : PluginConfig) (now : Int) (key : String)
    (st : StoreState) :
    ((SessionStore.activate cfg now key st).1.1 = true →
      countActive (SessionStore.activate cfg now key st).2.states ≤
        cfg.max_concurrent_states) ∧
    (cfg.max_concurrent_states ≤
        countActive (cleanup_states cfg.exit_pending_ttl now st.states).1 →
      SessionStore.activate cfg now key st = ((false, "并发上限"), st)) := by
  rw [activate_eq_def]
  by_cases hcap : cfg.max_concurrent_states ≤
      countActive (cleanup_states cfg.exit_pending_ttl now st.states).1
  · rw [if_pos hcap]
    exact ⟨fun h => by simp at h, fun _ => rfl⟩
  · rw [if_neg hcap]
    constructor
    · intro _
      have h1 := countActive_kvInsert_le
        (cleanup_states cfg.exit_pending_ttl now st.states).1 key
        (SessionRecord.active now cfg.state_duration_seconds
          cfg.interactive_item_name cfg.sensitivity_level)
      show countActive (kvInsert
        (cleanup_states cfg.exit_pending_ttl now st.states).1 key
        (SessionRecord.active now cfg.state_duration_seconds
          cfg.interactive_item_name cfg.sensitivity_level)) ≤
        cfg.max_concurrent_states
      omega
    · intro h
      exact absurd h hcap

theorem capacity_never_exceeded_witness :
    ((SessionStore.activate testCfg 0 "a" emptyStore).1.1 = true ∧
      countActive (SessionStore.activate testCfg 0 "a" emptyStore).2.states ≤
        testCfg.max_concurrent_states) ∧
    (capCfg.max_concurrent_states ≤
        countActive (cleanup_states capCfg.exit_pending_ttl 0 emptyStore.states).1 ∧
      SessionStore.activate capCfg 0 "b" emptyStore =
        ((false, "并发上限"), emptyStore)) :=
  ⟨⟨by decide, (capacity_never_exceeded testCfg 0 "a" emptyStore).1 (by decide)⟩,
    ⟨by decide, (capacity_never_exceeded capCfg 0 "b" emptyStore).2 (by decide)⟩⟩

/-- C2: below the (cleanup-adjusted) capacity limit, `activate` succeeds,
unconditionally overwrites any prior record for the key with a fresh ACTIVE
record built from the configuration, sets the key's cooldown to
`now + cooldown_seconds`, and an immediate `get` returns an ACTIVE record
with `end_at - activated_at` equal to the configured duration. -/
theorem activate_creates_fresh_active (cfg : PluginConfig) (now : Int)
    (key : String) (st : StoreState)
    (hcap : countActive (cleanup_states cfg.exit_pending_ttl now st.states).1 <
      cfg.max_concurrent_states)
    (hdur : 0 < cfg.state_duration_seconds) :
    (SessionStore.activate cfg now key st).1 = (true, "ok") ∧
    kvLookup (SessionStore.activate cfg now key st).2.states key =
      some (SessionRecord.active now cfg.state_duration_seconds
        cfg.interactive_item_name cfg.sensitivity_level) ∧
    kvLookup (SessionStore.activate cfg now key st).2.cooldowns key =
      some (now + cfg.cooldown_seconds) ∧
    ∃ r, (SessionStore.get cfg now key
        (SessionStore.activate cfg now key st).2).1 = some r ∧
      r.is_active = true ∧
      ∃ a e, r.activated_at = some a ∧ r.end_at = some e ∧
        e - a = cfg.state_duration_seconds := by
  have hneg : ¬(cfg.max_concurrent_states ≤
      countActive (cleanup_states cfg.exit_pending_ttl now st.states).1) := by
    omega
  rw [activate_eq_def, if_neg hneg]
  refine ⟨rfl, kvLookup_kvInsert_self _ _ _, kvLookup_kvInsert_self _ _ _, ?_⟩
  refine ⟨SessionRecord.active now cfg.state_duration_seconds
    cfg.interactive_item_name cfg.sensitivity_level, ?_, rfl,
    now, now + cfg.state_duration_seconds, rfl, rfl, by ring⟩
  rw [get_eq_def]
  exact kvLookup_cleanup_states_not_expired (kvLookup_kvInsert_self _ _ _)
    (by simp only [SessionRecord.is_expired_active, SessionRecord.active,
          Bool.true_and, decide_eq_false_iff_not]
        omega)
    (by simp [SessionRecord.is_expired_exit, SessionRecord.active])

theorem activate_creates_fresh_active_witness :
    (countActive (cleanup_states testCfg.exit_pending_ttl 7 emptyStore.states).1 <
      testCfg.max_concurrent_states) ∧
    0 < testCfg.state_duration_seconds ∧
    (SessionStore.activate testCfg 7 "a" emptyStore).1 = (true, "ok") ∧
    kvLookup (SessionStore.activate testCfg 7 "a" emptyStore).2.cooldowns "a" =
      some (7 + testCfg.cooldown_seconds) :=
  ⟨by decide, by decide,
    (activate_creates_fresh_active testCfg 7 "a" emptyStore
      (by decide) (by decide)).1,
    (activate_creates_fresh_active testCfg 7 "a" emptyStore
      (by decide) (by decide)).2.2.1⟩

/-- C3: `complete_exit` is exactly-once: it returns nothing and changes
nothing when the key has no record or an ACTIVE record; on an EXIT_PENDING
record it removes it and returns it, so an immediate second call returns
nothing. -/
theorem complete_exit_exactly_once (key : String) (st : StoreState) :
    (kvLookup st.states key = none →
      SessionStore.complete_exit key st = (none, st)) ∧
    (∀ sr, kvLookup st.states key = some sr → sr.is_active = true →
      SessionStore.complete_exit key st = (none, st)) ∧
    (∀ sr, kvLookup st.states key = some sr → sr.is_active = false →
      (SessionStore.complete_exit key st).1 = some sr ∧
      SessionStore.complete_exit key (SessionStore.complete_exit key st).2 =
        (none, (SessionStore.complete_exit key st).2)) := by
  refine ⟨?_, ?_, ?_⟩
  · intro h
    unfold SessionStore.complete_exit
    rw [h]
  · intro sr h ha
    unfold SessionStore.complete_exit
    rw [h]
    simp [ha]
  · intro sr h ha
    have hval : SessionStore.complete_exit key st =
        (some sr, { st with states := kvErase st.states key }) := by
      unfold SessionStore.complete_exit
      rw [h]
      simp [ha]
    rw [hval]
    refine ⟨rfl, ?_⟩
    unfold SessionStore.complete_exit
    rw [show kvLookup ({ st with states := kvErase st.states key } :
        StoreState).states key = none from kvLookup_kvErase_self _ _]

theorem complete_exit_exactly_once_witness :
    kvLookup stExit.states "a" =
      some (SessionRecord.exit_pending 0 "user" "device") ∧
    (SessionRecord.exit_pending 0 "user" "device").is_active = false ∧
    (SessionStore.complete_exit "a" stExit).1 =
      some (SessionRecord.exit_pending 0 "user" "device") ∧
    SessionStore.complete_exit "a" (SessionStore.complete_exit "a" stExit).2 =
      (none, (SessionStore.complete_exit "a" stExit).2) :=
  ⟨by decide, by decide,
    ((complete_exit_exactly_once "a" stExit).2.2
      (SessionRecord.exit_pending 0 "user" "device")
      (by decide) (by decide)).1,
    ((complete_exit_exactly_once "a" stExit).2.2
      (SessionRecord.exit_pending 0 "user" "device")
      (by decide) (by decide)).2⟩

/-- C7: `deactivate` returns `false` and leaves the persisted store unchanged
when the key has no record or a non-ACTIVE record; on an ACTIVE record it
replaces it with an EXIT_PENDING record (`reason = "user"`, `ts = now`,
item name preserved), leaves the cooldowns untouched and returns `true`. -/
theorem deactivate_spec (now : Int) (key : String) (st : StoreState) :
    (kvLookup st.states key = none →
      SessionStore.deactivate now key st = (false, st)) ∧
    (∀ sr, kvLookup st.states key = some sr → sr.is_active = false →
      SessionStore.deactivate now key st = (false, st)) ∧
    (∀ sr, kvLookup st.states key = some sr → sr.is_active = true →
      (SessionStore.deactivate now key st).1 = true ∧
      (SessionStore.deactivate now key st).2.states =
        kvInsert st.states key
          (SessionRecord.exit_pending now "user" sr.item_name) ∧
      kvLookup (SessionStore.deactivate now key st).2.states key =
        some (SessionRecord.exit_pending now "user" sr.item_name) ∧
      (SessionStore.deactivate now key st).2.cooldowns = st.cooldowns) := by
  refine ⟨fun h => deactivate_eq_of_none now h,
    fun sr h ha => deactivate_eq_of_inactive now h ha,
    fun sr h ha => ?_⟩
  rw [deactivate_eq_of_active now h ha]
  exact ⟨rfl, rfl, kvLookup_kvInsert_self _ _ _, rfl⟩

theorem deactivate_spec_witness :
    (kvLookup stActive.states "b" = none ∧
      SessionStore.deactivate 1 "b" stActive = (false, stActive)) ∧
    (kvLookup stActive.states "a" = some (SessionRecord.active 0 5 "device" 50) ∧
      (SessionRecord.active 0 5 "device" 50).is_active = true ∧
      (SessionStore.deactivate 1 "a" stActive).1 = true ∧
      kvLookup (SessionStore.deactivate 1 "a" stActive).2.states "a" =
        some (SessionRecord.exit_pending 1 "user" "device")) :=
  ⟨⟨by decide, (deactivate_spec 1 "b" stActive).1 (by decide)⟩,
    ⟨by decide, by decide,
      ((deactivate_spec 1 "a" stActive).2.2
        (SessionRecord.active 0 5 "device" 50) (by decide) (by decide)).1,
      ((deactivate_spec 1 "a" stActive).2.2
        (SessionRecord.active 0 5 "device" 50) (by decide) (by decide)).2.2.1⟩⟩

/-- C10: `deactivate` runs no cleanup pass first, so on a record that is
still ACTIVE but already past its natural expiry (`end_at <= now`) it still
succeeds and stores an EXIT_PENDING record with `reason = "user"`, not
`"expire"`. -/
theorem deactivate_ignores_expiry (now : Int) (key : String) (st : StoreState)
    (sr : SessionRecord) (h : kvLookup st.states key = some sr)
    (ha : sr.is_active = true) (e : Int) (he : sr.end_at = some e)
    (hle : e ≤ now) :
    sr.is_expired_active now = true ∧
    (SessionStore.deactivate now key st).1 = true ∧
    kvLookup (SessionStore.deactivate now key st).2.states key =
      some (SessionRecord.exit_pending now "user" sr.item_name) := by
  refine ⟨?_, ?_, ?_⟩
  · simp [SessionRecord.is_expired_active, ha, he, hle]
  · rw [deactivate_eq_of_active now h ha]
  · rw [deactivate_eq_of_active now h ha]
    exact kvLookup_kvInsert_self _ _ _

theorem deactivate_ignores_expiry_witness :
    (kvLookup stActive.states "a" = some (SessionRecord.active 0 5 "device" 50) ∧
      (SessionRecord.active 0 5 "device" 50).is_active = true ∧
      (SessionRecord.active 0 5 "device" 50).end_at = some 5 ∧
      (5 : Int) ≤ 9) ∧
    (SessionRecord.active 0 5 "device" 50).is_expired_active 9 = true ∧
    (SessionStore.deactivate 9 "a" stActive).1 = true ∧
    kvLookup (SessionStore.deactivate 9 "a" stActive).2.states "a" =
      some (SessionRecord.exit_pending 9 "user" "device") :=
  ⟨⟨by decide, by decide, by decide, by decide⟩,
    (deactivate_ignores_expiry 9 "a" stActive
      (SessionRecord.active 0 5 "device" 50) (by decide) (by decide) 5
      (by decide) (by decide)).1,
    (deactivate_ignores_expiry 9 "a" stActive
      (SessionRecord.active 0 5 "device" 50) (by decide) (by decide) 5
      (by decide) (by decide)).2.1,
    (deactivate_ignores_expiry 9 "a" stActive
      (SessionRecord.active 0 5 "device" 50) (by decide) (by decide) 5
      (by decide) (by decide)).2.2⟩

/-- C8: `check_cooldown` returns `max 0 (cooldownEnd - now)`, returns `0`
when no cooldown entry exists, mutates no state; right after a granted
`activate` with `cooldown_seconds = 30` it returns a value in `(0, 30]`, and
31 seconds later it returns `0`. -/
theorem check_cooldown_spec :
    (∀ (st : StoreState) (now : Int) (key : String),
      SessionStore.check_cooldown now key st =
        max 0 ((kvLookup st.cooldowns key).getD 0 - now)) ∧
    (∀ (st : StoreState) (now : Int) (key : String), 0 ≤ now →
      kvLookup st.cooldowns key = none →
      SessionStore.check_cooldown now key st = 0) ∧
    (∀ (cfg : PluginConfig) (st : StoreState) (now : Int) (key : String),
      StoreOp.apply cfg (StoreOp.checkCooldownOp now key) st = st) ∧
    (∀ (cfg : PluginConfig) (st : StoreState) (now : Int) (key : String),
      cfg.cooldown_seconds = 30 →
      (SessionStore.activate cfg now key st).1.1 = true →
      0 < SessionStore.check_cooldown now key
          (SessionStore.activate cfg now key st).2 ∧
      SessionStore.check_cooldown now key
          (SessionStore.activate cfg now key st).2 ≤ 30 ∧
      SessionStore.check_cooldown (now + 31) key
          (SessionStore.activate cfg now key st).2 = 0) := by
  refine ⟨fun st now key => rfl, ?_, fun cfg st now key => rfl, ?_⟩
  · intro st now key h0 hnone
    unfold SessionStore.check_cooldown
    rw [hnone]
    show max 0 (0 - now) = 0
    rw [max_eq_left (by omega)]
  · intro cfg st now key hcd hgrant
    by_cases hcap : cfg.max_concurrent_states ≤
        countActive (cleanup_states cfg.exit_pending_ttl now st.states).1
    · rw [activate_eq_def, if_pos hcap] at hgrant
      simp at hgrant
    · have hlook : kvLookup
          (SessionStore.activate cfg now key st).2.cooldowns key =
          some (now + cfg.cooldown_seconds) := by
        rw [activate_eq_def, if_neg hcap]
        exact kvLookup_kvInsert_self _ _ _
      have h30 : SessionStore.check_cooldown now key
          (SessionStore.activate cfg now key st).2 = 30 := by
        unfold SessionStore.check_cooldown
        rw [hlook, hcd]
        show max 0 (now + 30 - now) = 30
        rw [show now + 30 - now = (30 : Int) by ring, max_eq_right (by norm_num)]
      refine ⟨by rw [h30]; norm_num, by rw [h30], ?_⟩
      unfold SessionStore.check_cooldown
      rw [hlook, hcd]
      show max 0 (now + 30 - (now + 31)) = 0
      rw [show now + 30 - (now + 31) = (-1 : Int) by ring,
        max_eq_left (by norm_num)]

theorem check_cooldown_spec_witness :
    ((0 : Int) ≤ 0 ∧ kvLookup emptyStore.cooldowns "z" = none ∧
      SessionStore.check_cooldown 0 "z" emptyStore = 0) ∧
    (testCfg.cooldown_seconds = 30 ∧
      (SessionStore.activate testCfg 2 "a" emptyStore).1.1 = true ∧
      0 < SessionStore.check_cooldown 2 "a"
          (SessionStore.activate testCfg 2 "a" emptyStore).2 ∧
      SessionStore.check_cooldown 2 "a"
          (SessionStore.activate testCfg 2 "a" emptyStore).2 ≤ 30 ∧
      SessionStore.check_cooldown (2 + 31) "a"
          (SessionStore.activate testCfg 2 "a" emptyStore).2 = 0) :=
  ⟨⟨by decide, by decide,
      check_cooldown_spec.2.1 emptyStore 0 "z" (by decide) (by decide)⟩,
    ⟨by decide, by decide,
      (check_cooldown_spec.2.2.2 testCfg emptyStore 2 "a"
        (by decide) (by decide)).1,
      (check_cooldown_spec.2.2.2 testCfg emptyStore 2 "a"
        (by decide) (by decide)).2.1,
      (check_cooldown_spec.2.2.2 testCfg emptyStore 2 "a"
        (by decide) (by decide)).2.2⟩⟩

theorem wellShaped_active (now duration : Int) (nm : String) (s : Int) :
    WellShaped (SessionRecord.active now duration nm s) := by
  unfold WellShaped
  left
  simp [SessionRecord.active]

theorem wellShaped_exit_pending (now : Int) (rs nm : String) :
    WellShaped (SessionRecord.exit_pending now rs nm) := by
  unfold WellShaped
  right
  simp [SessionRecord.exit_pending]

theorem cleanup_states_wellShaped {ttl now : Int}
    {l : List (String × SessionRecord)} (h : ∀ kv ∈ l, WellShaped kv.2) :
    ∀ kv ∈ (cleanup_states ttl now l).1, WellShaped kv.2 := by
  intro kv hkv
  rcases mem_cleanup_states hkv with hmem | ⟨nm, hnm⟩
  · rcases List.mem_map.mp hmem with ⟨kv₀, hkv₀, heq⟩
    rw [← heq]
    exact h kv₀ hkv₀
  · rw [hnm]
    exact wellShaped_exit_pending now "expire" nm

/-- C5: every store operation maps a well-shaped record collection (each
record ACTIVE-shaped xor EXIT_PENDING-shaped) to a well-shaped one. -/
theorem shape_invariant_preserved (cfg : PluginConfig) (op : StoreOp)
    (st : StoreState) (h : ∀ kv ∈ st.states, WellShaped kv.2) :
    ∀ kv ∈ (op.apply cfg st).states, WellShaped kv.2 := by
  cases op with
  | getOp now key => exact cleanup_states_wellShaped h
  | activateOp now key =>
    intro kv hkv
    have hkv2 : kv ∈ (SessionStore.activate cfg now key st).2.states := hkv
    by_cases hcap : cfg.max_concurrent_states ≤
        countActive (cleanup_states cfg.exit_pending_ttl now st.states).1
    · rw [activate_eq_def, if_pos hcap] at hkv2
      exact h kv hkv2
    · rw [activate_eq_def, if_neg hcap] at hkv2
      rcases mem_kvInsert hkv2 with hm | hm
      · exact cleanup_states_wellShaped h kv hm
      · rw [hm]
        exact wellShaped_active now cfg.state_duration_seconds
          cfg.interactive_item_name cfg.sensitivity_level
  | deactivateOp now key =>
    intro kv hkv
    have hkv2 : kv ∈ (SessionStore.deactivate now key st).2.states := hkv
    cases hl : kvLookup st.states key with
    | none =>
      rw [deactivate_eq_of_none now hl] at hkv2
      exact h kv hkv2
    | some sr =>
      by_cases ha : sr.is_active
      · rw [deactivate_eq_of_active now hl ha] at hkv2
        rcases mem_kvInsert hkv2 with hm | hm
        · exact h kv hm
        · rw [hm]
          exact wellShaped_exit_pending now "user" sr.item_name
      · rw [deactivate_eq_of_inactive now hl (by simpa using ha)] at hkv2
        exact h kv hkv2
  | completeExitOp key =>
    intro kv hkv
    have hkv2 : kv ∈ (SessionStore.complete_exit key st).2.states := hkv
    cases hl : kvLookup st.states key with
    | none =>
      rw [complete_exit_eq_of_none hl] at hkv2
      exact h kv hkv2
    | some sr =>
      by_cases ha : sr.is_active
      · rw [complete_exit_eq_of_active hl ha] at hkv2
        exact h kv hkv2
      · rw [complete_exit_eq_of_inactive hl (by simpa using ha)] at hkv2
        exact h kv (mem_kvErase hkv2)
  | checkCooldownOp now key => exact h

theorem shape_invariant_preserved_witness :
    (∀ kv ∈ stExit.states, WellShaped kv.2) ∧
    (∀ kv ∈ ((StoreOp.activateOp 3 "b").apply testCfg stExit).states,
      WellShaped kv.2) :=
  ⟨by decide,
    shape_invariant_preserved testCfg (StoreOp.activateOp 3 "b") stExit
      (by decide)⟩

/-- C6: the cleanup pass maps each record pointwise (expired ACTIVE becomes
a fresh EXIT_PENDING with `reason = "expire"`, `ts = now`, item name kept;
TTL-expired EXIT_PENDING is dropped; everything else is kept), its changed
flag is true iff the output differs from the input, and in the concrete
scenario (duration 5, TTL 100) `get "a"` at t=6 after activating at t=0
yields EXIT_PENDING/"expire" while `get "a"` at t=107 yields nothing. -/
theorem cleanup_pass_spec :
    (∀ (ttl now : Int) (l : List (String × SessionRecord)),
      (cleanup_states ttl now l).1 = l.filterMap (cleanupEntry ttl now)) ∧
    (∀ (ttl now : Int) (l : List (String × SessionRecord)),
      (cleanup_states ttl now l).2 = true ↔ (cleanup_states ttl now l).1 ≠ l) ∧
    ((SessionStore.activate testCfg 0 "a" emptyStore).1 = (true, "ok") ∧
      (SessionStore.get testCfg 6 "a"
        (SessionStore.activate testCfg 0 "a" emptyStore).2).1 =
        some (SessionRecord.exit_pending 6 "expire" "device") ∧
      (SessionStore.get testCfg 107 "a"
        (SessionStore.get testCfg 6 "a"
          (SessionStore.activate testCfg 0 "a" emptyStore).2).2).1 = none) :=
  ⟨cleanup_states_eq_filterMap, cleanup_states_changed_iff,
    by decide, by decide, by decide⟩

theorem cleanup_pass_spec_witness :
    (cleanup_states 100 6 [("a", SessionRecord.active 0 5 "device" 50)]).2 =
      true ∧
    (cleanup_states 100 6 [("a", SessionRecord.active 0 5 "device" 50)]).1 ≠
      [("a", SessionRecord.active 0 5 "device" 50)] :=
  ⟨by decide, (cleanup_pass_spec.2.1 100 6 _).mp (by decide)⟩

theorem not_inactive_active {sr sr' : SessionRecord}
    (hin : sr.is_active = false) (hact : sr'.is_active = true)
    (he : sr = sr') : False := by
  subst he
  rw [hin] at hact
  exact absurd hact (by decide)

/-- C4 counterexample: from the empty backend, activate "a", deactivate it,
then activate it again; the trace goes EXIT_PENDING → ACTIVE for "a" with no
intermediate record-free point, refuting the claim as stated. -/
theorem exit_pending_to_active_counterexample :
    ¬ claimC4Statement testCfg
      [StoreOp.activateOp 0 "a", StoreOp.deactivateOp 1 "a",
        StoreOp.activateOp 2 "a"] "a" := by
  intro h
  obtain ⟨m, hm3, h2m, _⟩ :=
    h 2 (by decide) 3 (by decide) (by decide) (by decide) (by decide)
  omega

/-- C4 amended: a single store operation takes a key's record from
EXIT_PENDING to ACTIVE only when that operation is an `activate` of that very
key (which overwrites the EXIT_PENDING record directly); `get`, `deactivate`,
`complete_exit`, `check_cooldown`, and activations of other keys never do,
so apart from the overwriting `activate` a key passes through "no record". -/
theorem exit_pending_to_active_only_by_activate (cfg : PluginConfig)
    (op : StoreOp) (st : StoreState) (key : String) (sr sr' : SessionRecord)
    (hnd : (st.states.map Prod.fst).Nodup)
    (h : kvLookup st.states key = some sr) (hin : sr.is_active = false)
    (h' : kvLookup (op.apply cfg st).states key = some sr')
    (hact : sr'.is_active = true) :
    ∃ now, op = StoreOp.activateOp now key := by
  cases op with
  | getOp now k' =>
    exfalso
    have h2 : kvLookup
        (cleanup_states cfg.exit_pending_ttl now st.states).1 key =
        some sr' := h'
    have h3 := kvLookup_cleanup_states_active hnd h2 hact
    rw [h] at h3
    injection h3 with h3
    exact not_inactive_active hin hact h3
  | activateOp now k' =>
    by_cases hk : k' = key
    · subst hk
      exact ⟨now, rfl⟩
    · exfalso
      have h2 : kvLookup (SessionStore.activate cfg now k' st).2.states key =
          some sr' := h'
      by_cases hcap : cfg.max_concurrent_states ≤
          countActive (cleanup_states cfg.exit_pending_ttl now st.states).1
      · rw [activate_eq_def, if_pos hcap] at h2
        have h4 : kvLookup st.states key = some sr' := h2
        rw [h] at h4
        injection h4 with h4
        exact not_inactive_active hin hact h4
      · rw [activate_eq_def, if_neg hcap] at h2
        have h4 : kvLookup (kvInsert
            (cleanup_states cfg.exit_pending_ttl now st.states).1 k'
            (SessionRecord.active now cfg.state_duration_seconds
              cfg.interactive_item_name cfg.sensitivity_level)) key =
            some sr' := h2
        rw [kvLookup_kvInsert_ne _ _ hk] at h4
        have h5 := kvLookup_cleanup_states_active hnd h4 hact
        rw [h] at h5
        injection h5 with h5
        exact not_inactive_active hin hact h5
  | deactivateOp now k' =>
    exfalso
    have h2 : kvLookup (SessionStore.deactivate now k' st).2.states key =
        some sr' := h'
    cases hl : kvLookup st.states k' with
    | none =>
      rw [deactivate_eq_of_none now hl] at h2
      have h4 : kvLookup st.states key = some sr' := h2
      rw [h] at h4
      injection h4 with h4
      exact not_inactive_active hin hact h4
    | some sr₀ =>
      by_cases ha : sr₀.is_active
      · rw [deactivate_eq_of_active now hl ha] at h2
        by_cases hk : k' = key
        · subst hk
          rw [h] at hl
          injection hl with hl
          rw [hl] at hin
          rw [hin] at ha
          exact absurd ha (by decide)
        · have h4 : kvLookup (kvInsert st.states k'
              (SessionRecord.exit_pending now "user" sr₀.item_name)) key =
              some sr' := h2
          rw [kvLookup_kvInsert_ne _ _ hk] at h4
          rw [h] at h4
          injection h4 with h4
          exact not_inactive_active hin hact h4
      · rw [deactivate_eq_of_inactive now hl (by simpa using ha)] at h2
        have h4 : kvLookup st.states key = some sr' := h2
        rw [h] at h4
        injection h4 with h4
        exact not_inactive_active hin hact h4
  | completeExitOp k' =>
    exfalso
    have h2 : kvLookup (SessionStore.complete_exit k' st).2.states key =
        some sr' := h'
    cases hl : kvLookup st.states k' with
    | none =>
      rw [complete_exit_eq_of_none hl] at h2
      have h4 : kvLookup st.states key = some sr' := h2
      rw [h] at h4
      injection h4 with h4
      exact not_inactive_active hin hact h4
    | some sr₀ =>
      by_cases ha : sr₀.is_active
      · rw [complete_exit_eq_of_active hl ha] at h2
        have h4 : kvLookup st.states key = some sr' := h2
        rw [h] at h4
        injection h4 with h4
        exact not_inactive_active hin hact h4
      · rw [complete_exit_eq_of_inactive hl (by simpa using ha)] at h2
        have h4 : kvLookup (kvErase st.states k') key = some sr' := h2
        by_cases hk : k' = key
        · subst hk
          rw [kvLookup_kvErase_self] at h4
          cases h4
        · rw [kvLookup_kvErase_ne _ hk] at h4
          rw [h] at h4
          injection h4 with h4
          exact not_inactive_active hin hact h4
  | checkCooldownOp now k' =>
    exfalso
    have h4 : kvLookup st.states key = some sr' := h'
    rw [h] at h4
    injection h4 with h4
    exact not_inactive_active hin hact h4

theorem exit_pending_to_active_only_by_activate_witness :
    ((stExit.states.map Prod.fst).Nodup ∧
      kvLookup stExit.states "a" =
        some (SessionRecord.exit_pending 0 "user" "device") ∧
      (SessionRecord.exit_pending 0 "user" "device").is_active = false ∧
      kvLookup ((StoreOp.activateOp 5 "a").apply testCfg stExit).states "a" =
        some (SessionRecord.active 5 5 "device" 50) ∧
      (SessionRecord.active 5 5 "device" 50).is_active = true) ∧
    ∃ now, StoreOp.activateOp 5 "a" = StoreOp.activateOp now "a" :=
  ⟨⟨by decide, by decide, by decide, by decide, by decide⟩,
    exit_pending_to_active_only_by_activate testCfg
      (StoreOp.activateOp 5 "a") stExit "a"
      (SessionRecord.exit_pending 0 "user" "device")
      (SessionRecord.active 5 5 "device" 50)
      (by decide) (by decide) (by decide) (by decide) (by decide)⟩

/-! ### Loading of persisted records (C9) -/

theorem kvLookup_eq_none_of_not_mem {α : Type} {l : List (String × α)}
    {k : String} (h : k ∉ l.map Prod.fst) : kvLookup l k = none := by
  cases hl : kvLookup l k with
  | none => rfl
  | some v => exact absurd (kvLookup_mem_keys hl) h

theorem load_states_cons (k : String) (d : SessionDict)
    (rest : List (String × SessionDict)) :
    load_states ((k, d) :: rest) =
      match SessionRecord.from_dict d with
      | some r => (k, r) :: load_states rest
      | none => load_states rest := rfl

theorem from_dict_eq_none (d : SessionDict)
    (hb : ∀ b, d.is_active ≠ some (some b)) :
    SessionRecord.from_dict d = none := by
  unfold SessionRecord.from_dict
  cases hd : d.is_active with
  | none => rfl
  | some o =>
    cases o with
    | none => rfl
    | some b => exact absurd hd (hb b)

theorem load_states_keys_sub {l : List (String × SessionDict)} {k : String}
    (h : k ∈ (load_states l).map Prod.fst) : k ∈ l.map Prod.fst := by
  induction l with
  | nil => simp [load_states] at h
  | cons head tl ih =>
    obtain ⟨k₁, d₁⟩ := head
    rw [load_states_cons] at h
    cases hfd : SessionRecord.from_dict d₁ with
    | some r =>
      rw [hfd] at h
      simp only [List.map_cons, List.mem_cons] at h
      rcases h with h | h
      · simp [h]
      · simpa using Or.inr (ih h)
    | none =>
      rw [hfd] at h
      simpa using Or.inr (ih h)

/-- C9 counterexample: the persisted value `{is_active: true}` fails the
shape invariant (no `activated_at`/`end_at`/`sensitivity`), yet loading does
not skip it: the loaded map still has a record for the key, refuting the
claim as stated. -/
theorem malformed_entry_counterexample : ¬ claimC9Statement := by
  intro h
  exact absurd
    (h [("a", badDict)] "a" badDict testCfg 0 (by decide) (by decide)).1
    (by decide)

/-- C9 amended: loading skips exactly the entries whose `is_active` field is
missing or not a boolean (treating them as absent, without failing); an
entry with a boolean `is_active` is loaded even when it violates the shape
invariant. -/
theorem malformed_entry_skipped :
    (∀ d : SessionDict, (∀ b, d.is_active ≠ some (some b)) →
      SessionRecord.from_dict d = none) ∧
    (∀ (d : SessionDict) (b : Bool), d.is_active = some (some b) →
      ∃ r, SessionRecord.from_dict d = some r ∧ r.is_active = b) ∧
    (∀ (raw : List (String × SessionDict)) (k : String) (d : SessionDict),
      (raw.map Prod.fst).Nodup → kvLookup raw k = some d →
      (∀ b, d.is_active ≠ some (some b)) →
      kvLookup (load_states raw) k = none) := by
  refine ⟨from_dict_eq_none, ?_, ?_⟩
  · intro d b hd
    refine ⟨{ is_active := b
              item_name := d.item_name.getD "特殊装置"
              sensitivity := d.sensitivity
              end_at := d.end_at
              activated_at := d.activated_at
              ts := d.ts
              reason := d.reason }, ?_, rfl⟩
    unfold SessionRecord.from_dict
    rw [hd]
  · intro raw k d
    induction raw with
    | nil =>
      intro _ hl _
      simp [kvLookup] at hl
    | cons head tl ih =>
      obtain ⟨k₁, d₁⟩ := head
      intro hnd hl hb
      have hnd' : (tl.map Prod.fst).Nodup := (List.nodup_cons.mp hnd).2
      have hk₁ : k₁ ∉ tl.map Prod.fst := (List.nodup_cons.mp hnd).1
      by_cases hk : k₁ = k
      · subst hk
        rw [kvLookup_cons, if_pos rfl] at hl
        injection hl with hl
        subst hl
        rw [load_states_cons, from_dict_eq_none _ hb]
        exact kvLookup_eq_none_of_not_mem
          (fun hmem => hk₁ (load_states_keys_sub hmem))
      · rw [kvLookup_cons, if_neg hk] at hl
        rw [load_states_cons]
        cases hfd : SessionRecord.from_dict d₁ with
        | some r =>
          show kvLookup ((k₁, r) :: load_states tl) k = none
          rw [kvLookup_cons, if_neg hk]
          exact ih hnd' hl hb
        | none =>
          show kvLookup (load_states tl) k = none
          exact ih hnd' hl hb

theorem malformed_entry_skipped_witness :
    (([("a", noneDict)].map Prod.fst).Nodup ∧
      kvLookup [("a", noneDict)] "a" = some noneDict ∧
      (∀ b, noneDict.is_active ≠ some (some b))) ∧
    kvLookup (load_states [("a", noneDict)]) "a" = none :=
  ⟨⟨by decide, by decide, by decide⟩,
    malformed_entry_skipped.2.2 [("a", noneDict)] "a" noneDict
      (by decide) (by decide) (by decide)⟩

end ImmersiveControl
